import Mathlib

/-!
# Verification of the rx7sim exhaust particle system and spatial audio mixer

Shallow embedding of the core logic of `src/systems/exhaust.js`,
`src/systems/constants.js` and the sound-engine portion of `src/script.js`.

Numbers are modelled with `ℚ` (the JavaScript source computes with IEEE
doubles; all claims under study are about the exact-arithmetic algorithm).
Particle records are identified by natural-number ids where object identity
matters (the pool), and carried as explicit field records where field values
matter (the per-frame update pass).
-/

namespace RX7

/-! ## Drive state (`src/systems/constants.js`, `DriveState`) -/

/-- The four vehicle drive states of `constants.js`. -/
inductive DriveState where
  | stop
  | drive
  | accel
  | decel
deriving DecidableEq

/-! ## Particle pool (`src/systems/exhaust.js`, `particlePool`, lines 44-110)

The JS pool holds particle *objects*; object identity is what `release`
(via `indexOf`) and the free list track.  We model each ever-constructed
record by a distinct natural id, with `next` counting constructions:
`acquire` pops the last element of `pool` (JS `Array.pop`) or constructs a
fresh record, and appends it to `active` (JS `Array.push`); `release` removes
the first occurrence from `active` (JS `indexOf` + `splice`) and appends to
`pool`, and is a no-op when the record is not active; `clear` pops `active`
from the back, pushing each onto `pool`. -/

structure PoolState where
  pool : List ℕ
  active : List ℕ
  next : ℕ
deriving DecidableEq

/-- `particlePool.acquire()` (exhaust.js lines 54-79). -/
def PoolState.acquire (s : PoolState) : PoolState × ℕ :=
  match s.pool.getLast? with
  | some p => (⟨s.pool.dropLast, s.active ++ [p], s.next⟩, p)
  | none => (⟨s.pool, s.active ++ [s.next], s.next + 1⟩, s.next)

/-- `particlePool.release(particle)` (exhaust.js lines 85-91). -/
def PoolState.release (s : PoolState) (p : ℕ) : PoolState :=
  if p ∈ s.active then ⟨s.pool ++ [p], s.active.erase p, s.next⟩ else s

/-- `particlePool.getActiveCount()` (exhaust.js lines 97-99). -/
def PoolState.getActiveCount (s : PoolState) : ℕ :=
  s.active.length

/-- `particlePool.clear()` (exhaust.js lines 104-109): while `active` is
non-empty, pop its last element and push it onto `pool`. -/
def PoolState.clear (s : PoolState) : PoolState :=
  ⟨s.pool ++ s.active.reverse, [], s.next⟩

/-- One external operation on the pool. -/
inductive PoolOp where
  | acquire
  | release (p : ℕ)
  | clear
deriving DecidableEq

/-- Apply one pool operation to the pool state. -/
def PoolState.step (s : PoolState) : PoolOp → PoolState
  | .acquire => s.acquire.1
  | .release p => s.release p
  | .clear => s.clear

/-- Run a sequence of pool operations. -/
def runOps (ops : List PoolOp) (s : PoolState) : PoolState :=
  ops.foldl PoolState.step s

/-- The pool as the module initialises it: both lists empty, nothing
constructed yet. -/
def initPool : PoolState := ⟨[], [], 0⟩

/-! ## Particle records and per-frame particle dynamics
(`src/systems/exhaust.js`, `particleSystem`, lines 117-348)

The id-based `PoolState` above captures the object-identity view of the pool
that `release`/`indexOf` depend on; the definitions below carry the particle
*field* content that `particleSystem.update` reads and writes.  A particle
record mirrors the object literal of `acquire` (lines 60-75). -/

/-- One pooled particle record (exhaust.js lines 60-75).  Tuples are nested
right: a 3-tuple is accessed with `.1`, `.2.1`, `.2.2` and a 4-tuple with
`.1`, `.2.1`, `.2.2.1`, `.2.2.2`. -/
structure Particle where
  offset : ℚ × ℚ × ℚ
  scale : ℚ × ℚ
  quaternion : ℚ × ℚ × ℚ × ℚ
  rotation : ℚ
  color : ℚ × ℚ × ℚ × ℚ
  blend : ℚ
  texture : ℚ
  live : ℚ
  scale_increase : ℚ
  opacity_decrease : ℚ
  color_from : ℚ × ℚ × ℚ
  color_to : ℚ × ℚ × ℚ
  color_speed : ℚ
  color_pr : ℚ
deriving DecidableEq

/-- The emitter settings record (exhaust.js lines 133-157). -/
structure Settings where
  radius_1 : ℚ
  radius_2 : ℚ
  radius_height : ℚ
  add_time : ℚ
  elapsed : ℚ
  live_time_from : ℚ
  live_time_to : ℚ
  opacity_decrease : ℚ
  rotation_from : ℚ
  rotation_to : ℚ
  speed_from : ℚ
  speed_to : ℚ
  scale_from : ℚ
  scale_increase : ℚ
  color_from : ℚ × ℚ × ℚ
  color_to : ℚ × ℚ × ℚ
  color_speed_from : ℚ
  color_speed_to : ℚ
  brightness_from : ℚ
  brightness_to : ℚ
  opacity : ℚ
  blend : ℚ
  texture : ℚ
deriving DecidableEq

/-- The exhaust emitter as `initialize` builds it (exhaust.js lines 130-158). -/
structure EmitterState where
  enabled : Bool
  position : ℚ × ℚ × ℚ
  settings : Settings
deriving DecidableEq

/-- The settings record of the exhaust emitter created by
`particleSystem.initialize` (exhaust.js lines 133-157). -/
def initSettings : Settings where
  radius_1 := (1/50)
  radius_2 := (1/10)
  radius_height := (1/5)
  add_time := (1/50)
  elapsed := 0
  live_time_from := 1
  live_time_to := (3/2)
  opacity_decrease := (1/125)
  rotation_from := (1/2)
  rotation_to := 1
  speed_from := (3/1000)
  speed_to := (3/500)
  scale_from := (1/10)
  scale_increase := (1/500)
  color_from := ((9/10), (9/10), (9/10))
  color_to := ((1/2), (1/2), (1/2))
  color_speed_from := 1
  color_speed_to := 1
  brightness_from := (1/2)
  brightness_to := (9/10)
  opacity := (3/5)
  blend := (4/5)
  texture := (1/2)

/-- The exhaust emitter pushed by `initialize` (exhaust.js lines 130-159). -/
def initExhaustEmitter : EmitterState where
  enabled := false
  position := (-(1/2), (3/10), -2)
  settings := initSettings

/-- `MAX_PARTICLES` (exhaust.js line 9). -/
def MAX_PARTICLES : ℕ := 1000

/-- `Math.random() * (to - from) + from` (the uniform-range sample used
throughout the spawn block, with `u` standing for the `Math.random()` draw). -/
def lerp (f t u : ℚ) : ℚ := u * (t - f) + f

/-- The random draws consumed when spawning one particle (exhaust.js lines
200-237), abstracted as oracle values: the cone sampling of lines 200-213
computes `x_1`, `z_1` and a normalized direction with `sqrt`, `cos`, `sin`
and `Vector3.normalize`, which are transcendental; the claims under study
never depend on those values, so the sampled inner-disk point and the unit
direction are taken as inputs, while the plain uniform-range draws
(`speed`, `brightness`, `rotation`, `live`, `color_speed`) are modelled
exactly via `lerp` on a `[0,1]` draw. -/
structure SpawnRands where
  x_1 : ℚ
  z_1 : ℚ
  dir : ℚ × ℚ × ℚ
  speed_u : ℚ
  brightness_u : ℚ
  rotation_u : ℚ
  live_u : ℚ
  color_speed_u : ℚ
deriving DecidableEq

/-- Field initialization of a freshly spawned particle (exhaust.js lines
215-247).  Every field of the acquired record is overwritten, so the result
does not depend on whether `acquire` popped the free list or constructed a
new record. -/
def spawnParticle (s : Settings) (posY : ℚ) (r : SpawnRands) : Particle :=
  let speed := lerp s.speed_from s.speed_to r.speed_u
  let brightness := lerp s.brightness_from s.brightness_to r.brightness_u
  { offset := (r.x_1, posY, r.z_1)
    scale := (s.scale_from, s.scale_from)
    quaternion := (r.dir.1 * speed, r.dir.2.1 * speed, r.dir.2.2 * speed, 3)
    rotation := lerp s.rotation_from s.rotation_to r.rotation_u
    color := (1, 1, 1, s.opacity)
    blend := s.blend
    texture := s.texture
    live := lerp s.live_time_from s.live_time_to r.live_u
    scale_increase := s.scale_increase
    opacity_decrease := s.opacity_decrease
    color_from := (s.color_from.1 * brightness, s.color_from.2.1 * brightness,
      s.color_from.2.2 * brightness)
    color_to := (s.color_to.1 * brightness, s.color_to.2.1 * brightness,
      s.color_to.2.2 * brightness)
    color_speed := lerp s.color_speed_from s.color_speed_to r.color_speed_u
    color_pr := 0 }

/-- One frame of particle kinematics (exhaust.js lines 258-277): advance the
offset by the stored displacement, grow the scale, advance and clamp the
color-interpolation progress, interpolate RGB, decay opacity, decrement
remaining lifetime by `deltaTime`. -/
def stepParticle (dt : ℚ) (p : Particle) : Particle :=
  let pr0 := p.color_pr + p.color_speed
  let pr := if pr0 > 1 then 1 else pr0
  { p with
    offset := (p.offset.1 + p.quaternion.1, p.offset.2.1 + p.quaternion.2.1,
      p.offset.2.2 + p.quaternion.2.2.1)
    scale := (p.scale.1 + p.scale_increase, p.scale.2 + p.scale_increase)
    color_pr := pr
    color := (p.color_from.1 + (p.color_to.1 - p.color_from.1) * pr,
      p.color_from.2.1 + (p.color_to.2.1 - p.color_from.2.1) * pr,
      p.color_from.2.2 + (p.color_to.2.2 - p.color_from.2.2) * pr,
      p.color.2.2.2 - p.opacity_decrease)
    live := p.live - dt }

/-- Death test applied after the kinematic step (exhaust.js line 278):
lifetime exhausted or fully transparent. -/
def pDead (p : Particle) : Bool :=
  decide (p.live ≤ 0) || decide (p.color.2.2.2 ≤ 0)

/-- The flat render buffers (exhaust.js lines 15-21): positions hold xyz per
particle, colors RGBA per particle, sizes one scalar per particle. -/
structure Buffers where
  positions : ℕ → ℚ
  colors : ℕ → ℚ
  sizes : ℕ → ℚ

/-- Write the xyz of particle slot `i` (exhaust.js lines 284-287). -/
def write3 (f : ℕ → ℚ) (i : ℕ) (x y z : ℚ) : ℕ → ℚ :=
  Function.update (Function.update (Function.update f (i * 3) x) (i * 3 + 1) y)
    (i * 3 + 2) z

/-- Write the RGBA of particle slot `i` (exhaust.js lines 289-293). -/
def write4 (f : ℕ → ℚ) (i : ℕ) (r g b a : ℚ) : ℕ → ℚ :=
  Function.update (Function.update (Function.update (Function.update f
    (i * 4) r) (i * 4 + 1) g) (i * 4 + 2) b) (i * 4 + 3) a

/-- Result of the per-particle update pass. -/
structure PassResult where
  survivors : List Particle
  dead : List Particle
  bufs : Buffers

/-- The buffer writes for the surviving particle at loop index `i`
(exhaust.js lines 283-295): xyz at `i*3..i*3+2`, RGBA at `i*4..i*4+3`,
size (`scale[0]`) at `i`. -/
def passWrite (bufs : Buffers) (i : ℕ) (q : Particle) : Buffers :=
  ⟨write3 bufs.positions i q.offset.1 q.offset.2.1 q.offset.2.2,
    write4 bufs.colors i q.color.1 q.color.2.1 q.color.2.2.1 q.color.2.2.2,
    Function.update bufs.sizes i q.scale.1⟩

/-- The per-particle update pass (exhaust.js lines 252-296).  The source
iterates the `active` array by descending index, mutating each particle,
splicing dead ones out (a removal at index `i` only shifts the
already-processed indices above `i`) and writing each survivor into the
buffers at its loop index.  The element processed at loop index `i` is
therefore always the `i`-th element of the pre-pass array, and each buffer
slot is written at most once, so the loop is equivalently modelled head
first with an explicit position counter.  `dead` collects released particles
in ascending index order; the source pushes them onto the free list in
descending order, i.e. `dead.reverse`. -/
def runPass (dt : ℚ) : List Particle → ℕ → Buffers → PassResult
  | [], _, bufs => ⟨[], [], bufs⟩
  | p :: rest, i, bufs =>
      let q := stepParticle dt p
      if pDead q then
        let r := runPass dt rest (i + 1) bufs
        ⟨r.survivors, q :: r.dead, r.bufs⟩
      else
        let r := runPass dt rest (i + 1) (passWrite bufs i q)
        ⟨q :: r.survivors, r.dead, r.bufs⟩

/-- Whole particle-system state.  `particleSystem.initialize` registers
exactly one emitter (the exhaust emitter, lines 128-160), so the
`emitters.forEach` of `update` processes this single emitter.  `pool` and
`active` here carry the particle records themselves. -/
structure SysState where
  pool : List Particle
  active : List Particle
  emitter : EmitterState
  enabled : Bool
  visible : Bool
  bufs : Buffers

/-- The emission accumulator step (exhaust.js lines 186-188): given the
accumulated `elapsed` (after `+= deltaTime`), emit `floor(elapsed/add_time)`
particles and carry the remainder. -/
def emitStep (add_time elapsed : ℚ) : ℚ × ℤ :=
  let add := ⌊elapsed / add_time⌋
  (elapsed - add * add_time, add)

/-- The state-dependent settings mutation of `update` (exhaust.js lines
175-182): when not stopped, overwrite `add_time` and the speed range (a
two-tier rate keyed on `accel`). -/
def effectiveSettings (engineState : DriveState) (s : Settings) : Settings :=
  { s with
    add_time := if engineState = DriveState.accel then (1/100) else (1/50)
    speed_from := if engineState = DriveState.accel then (1/200) else (3/1000)
    speed_to := if engineState = DriveState.accel then (1/125) else (3/500) }

/-- The emitter phase of `update` for the single emitter (exhaust.js lines
174-249): returns the post-phase settings record (with the new accumulator
value) and the number of particles actually spawned.  The `while (add--)`
loop stops early once `getActiveCount()` reaches `MAX_PARTICLES`, silently
dropping the excess, so the spawned count is
`min requested (MAX_PARTICLES - activeCount)`. -/
def spawnPlan (dt : ℚ) (engineState : DriveState) (st : SysState) : Settings × ℕ :=
  if engineState ≠ DriveState.stop then
    let s1 := effectiveSettings engineState st.emitter.settings
    let r := emitStep s1.add_time (s1.elapsed + dt)
    ({ s1 with elapsed := r.1 }, min r.2.toNat (MAX_PARTICLES - st.active.length))
  else (st.emitter.settings, 0)

/-- The active array after the spawn loop (exhaust.js lines 190-248): the
previous active particles followed by the `spawnPlan`-many freshly
initialised ones, each `acquire`d (and hence appended to `active`) in
order.  `rands i` supplies the random draws of the `i`-th spawn. -/
def postSpawnActive (dt : ℚ) (engineState : DriveState)
    (rands : ℕ → SpawnRands) (st : SysState) : List Particle :=
  st.active ++ (List.range (spawnPlan dt engineState st).2).map
    (fun i => spawnParticle (spawnPlan dt engineState st).1
      st.emitter.position.2.1 (rands i))

/-- `particleSystem.update(deltaTime, engineState)` (exhaust.js lines
167-304): early-return guard, emitter/spawn phase, then the per-particle
pass.  Spawning pops the free list from the back (`particlePool.acquire`),
and the pass appends released particles to it in descending index order.
The `needsUpdate` flags of lines 299-303 are renderer-side and carry no
model state. -/
def update (dt : ℚ) (engineState : DriveState) (rands : ℕ → SpawnRands)
    (st : SysState) : SysState :=
  if st.enabled = false ∨ st.visible = false then st
  else
    let spawned := (spawnPlan dt engineState st).2
    let pool1 := st.pool.take (st.pool.length - spawned)
    let pass := runPass dt (postSpawnActive dt engineState rands st) 0 st.bufs
    { st with
      pool := pool1 ++ pass.dead.reverse
      active := pass.survivors
      emitter := { st.emitter with
        enabled := engineState ≠ DriveState.stop
        settings := (spawnPlan dt engineState st).1 }
      bufs := pass.bufs }

/-- A sequence of `update` calls, each with its own delta time, engine state
and random draws. -/
def applyCalls (calls : List (ℚ × DriveState × (ℕ → SpawnRands)))
    (st : SysState) : SysState :=
  calls.foldl (fun s c => update c.1 c.2.1 c.2.2 s) st

/-- `N` iterations of the emission accumulator with constant `add_time = a`
and constant `deltaTime = d`, starting from accumulator `0`: returns the
final accumulator and the cumulative emitted count.  This is exactly the
accumulator recurrence `update` runs through `emitStep` on every enabled
frame. -/
def emitTotals (a d : ℚ) : ℕ → ℚ × ℤ
  | 0 => (0, 0)
  | n + 1 =>
      let prev := emitTotals a d n
      let r := emitStep a (prev.1 + d)
      (r.1, prev.2 + r.2)

/-! ## Spatial audio mixer (`src/script.js`, `soundEngine` and
`audioEmitters`, lines 1606-1872; `src/systems/constants.js`,
`EmitterVolMults`) -/

/-- The closed perspective set (constants.js `SoloState`). -/
inductive Perspective where
  | mix
  | intake
  | exhaust
  | interior
deriving DecidableEq

/-- `EmitterVolMults` (constants.js lines 24-29). -/
def EmitterVolMults.MIX : ℚ := (4/5)

/-- `EmitterVolMults.INTAKE`. -/
def EmitterVolMults.INTAKE : ℚ := (1/2)

/-- `EmitterVolMults.EXHAUST`. -/
def EmitterVolMults.EXHAUST : ℚ := (4/5)

/-- `EmitterVolMults.INTERIOR`. -/
def EmitterVolMults.INTERIOR : ℚ := (3/10)

/-- `EmitterVolMults[pos.toUpperCase()]` (script.js line 1691). -/
def volMult : Perspective → ℚ
  | .mix => EmitterVolMults.MIX
  | .intake => EmitterVolMults.INTAKE
  | .exhaust => EmitterVolMults.EXHAUST
  | .interior => EmitterVolMults.INTERIOR

/-- The three non-mix perspectives, in the iteration order of
`individualEmitters` (script.js line 1677). -/
def individualEmitters : List Perspective :=
  [Perspective.intake, Perspective.exhaust, Perspective.interior]

/-- `baseTarget` (script.js lines 1684-1688). -/
def baseTarget (currSoloState pos : Perspective) : ℚ :=
  if currSoloState = Perspective.mix then EmitterVolMults.MIX
  else if pos = currSoloState then 1 else 0

/-- `targetVolume` (script.js line 1692): base target times the global
multiplier, clamped to `[0,1]`. -/
def targetVolume (currSoloState pos : Perspective) : ℚ :=
  max 0 (min 1 (baseTarget currSoloState pos * volMult pos))

/-- The smooth volume transition (script.js lines 1695-1700): move the
current gain toward the target by at most `0.2`, clamping at the target. -/
def stepVolume (cur target : ℚ) : ℚ :=
  if cur < target then min target (cur + (1/5))
  else if cur > target then max target (cur - (1/5))
  else cur

/-- `soundEngine.setEmitterVolumes(currSoloState)` (script.js lines
1675-1705) acting on the per-perspective gain map: each non-mix perspective
is stepped toward its target; the mix emitter is unconditionally set to 0
(line 1704). -/
def setEmitterVolumes (currSoloState : Perspective) (vols : Perspective → ℚ) :
    Perspective → ℚ :=
  fun p =>
    if p = Perspective.mix then 0
    else stepVolume (vols p) (targetVolume currSoloState p)

/-- The gains the emitters start with (script.js lines 1624-1661): the three
perspective emitters are created at volume 0, the mix emitter at 1.0. -/
def initVolumes : Perspective → ℚ
  | .mix => 1
  | _ => 0

/-! ## Convolution reverb routing (`src/script.js`, lines 1810-1871)

`applyConvolutionReverb` builds, per emitter, a parallel
dry-gain / convolver+wet-gain node group connected to the destination, after
disconnecting the group stored on the emitter from a previous call;
`removeConvolutionReverb` disconnects and clears the stored group of every
emitter.  The audio graph is modelled by the list of reverb node groups
currently connected for each emitter, node groups being identified by a
fresh id; `stored` is the `_reverbNodes` reference kept on the emitter. -/

structure NodeGroup where
  id : ℕ
  wetGain : ℚ
  dryGain : ℚ
deriving DecidableEq

structure EmitterReverb where
  connected : List NodeGroup
  stored : Option NodeGroup
deriving DecidableEq

structure ReverbState where
  ems : Perspective → EmitterReverb
  fresh : ℕ

/-- Position of each perspective in the `Object.values(audioEmitters)`
iteration order (script.js lines 1614-1619). -/
def perspectiveIdx : Perspective → ℕ
  | .mix => 0
  | .intake => 1
  | .exhaust => 2
  | .interior => 3

/-- Teardown of a previously stored reverb routing (script.js lines
1815-1824 and 1857-1867): disconnect the stored dry-gain, wet-gain and
convolver nodes — removing that group's paths from the graph — and clear
`_reverbNodes`. -/
def teardownReverb (e : EmitterReverb) : EmitterReverb :=
  match e.stored with
  | some g => ⟨e.connected.filter (fun x => decide (x ≠ g)), none⟩
  | none => e

/-- `soundEngine.applyConvolutionReverb(reverbBuffer)` (script.js lines
1810-1852): for every emitter, tear down the previously stored group, then
connect a fresh group with `wetGain = blend * scalingFactor` and
`dryGain = (1 - blend) * scalingFactor` and store it. -/
def applyConvolutionReverb (blend scalingFactor : ℚ) (st : ReverbState) :
    ReverbState where
  ems := fun p =>
    let e := teardownReverb (st.ems p)
    let g : NodeGroup :=
      ⟨st.fresh + perspectiveIdx p, blend * scalingFactor,
        (1 - blend) * scalingFactor⟩
    ⟨e.connected ++ [g], some g⟩
  fresh := st.fresh + 4

/-- `soundEngine.removeConvolutionReverb()` (script.js lines 1854-1871). -/
def removeConvolutionReverb (st : ReverbState) : ReverbState where
  ems := fun p => teardownReverb (st.ems p)
  fresh := st.fresh

/-- The reverb graph before any apply call: nothing connected, nothing
stored. -/
def initReverb : ReverbState where
  ems := fun _ => ⟨[], none⟩
  fresh := 0

/-- A sequence of `applyConvolutionReverb` calls with per-call blend and
scaling factor. -/
def applyReverbCalls (calls : List (ℚ × ℚ)) (st : ReverbState) : ReverbState :=
  calls.foldl (fun s c => applyConvolutionReverb c.1 c.2 s) st

/-! ## Drive-state ramp in the frame loop (`src/script.js`, `tick`,
lines 354-387)

The `accel` case runs `while (timeScale < 1.0) { timeScale += deltaTime;
if (timeScale >= 1.0) { timeScale = 1.0; driveState = DRIVE } }`, and the
`decel` case the mirror image down to `0.0` / `STOP`.  The while loops are
modelled with explicit fuel; `none` means the loop has not terminated within
the given fuel (with `deltaTime ≤ 0` the source loop never terminates). -/

def accelLoop (dt : ℚ) : ℕ → ℚ → Option (ℚ × DriveState)
  | 0, _ => none
  | fuel + 1, ts =>
      if ts < 1 then
        let ts1 := ts + dt
        if ts1 ≥ 1 then some (1, DriveState.drive)
        else accelLoop dt fuel ts1
      else some (ts, DriveState.accel)

def decelLoop (dt : ℚ) : ℕ → ℚ → Option (ℚ × DriveState)
  | 0, _ => none
  | fuel + 1, ts =>
      if ts > 0 then
        let ts1 := ts - dt
        if ts1 ≤ 0 then some (0, DriveState.stop)
        else decelLoop dt fuel ts1
      else some (ts, DriveState.decel)

/-- The drive-state portion of one `tick` call (script.js lines 357-386):
returns the wheel-mixer time scale and drive state after the switch
statement. -/
def tickDriveState (dt : ℚ) (fuel : ℕ) (ts : ℚ) :
    DriveState → Option (ℚ × DriveState)
  | .accel => accelLoop dt fuel ts
  | .decel => decelLoop dt fuel ts
  | .drive => some (ts, .drive)
  | .stop => some (ts, .stop)

/-- The conservation invariant of the pool: no duplicate records in either
list, no record in both lists, the two lists together hold exactly the
`next` records ever constructed, and every held id was constructed. -/
def PoolInv (s : PoolState) : Prop :=
  s.active.Nodup ∧ s.pool.Nodup ∧
    (∀ p, ¬(p ∈ s.active ∧ p ∈ s.pool)) ∧
    s.active.length + s.pool.length = s.next ∧
    (∀ p, p ∈ s.active ∨ p ∈ s.pool → p < s.next)

/-! ## Concrete states used to evaluate the model -/

/-- A fixed random-draw record (all draws at the low end of their ranges,
unit direction along y). -/
def zeroRands : SpawnRands :=
  ⟨0, 0, (0, 0, 1), 0, 0, 0, 0, 0⟩

/-- All-zero render buffers. -/
def zeroBuffers : Buffers :=
  ⟨fun _ => 0, fun _ => 0, fun _ => 0⟩

/-- A particle-system state whose global `enabled` flag is off. -/
def disabledState : SysState :=
  ⟨[], [], initExhaustEmitter, false, true, zeroBuffers⟩

/-- A particle-system state primed for a one-call burst: no active
particles, the accumulator holding `199.99` seconds, system enabled and
visible.  One `drive` update with `deltaTime = 0.01` then accumulates
`200.0` seconds and requests `floor(200 / 0.02) = 10000` spawns. -/
def burstState : SysState :=
  ⟨[], [],
    { initExhaustEmitter with settings := { initSettings with elapsed := (19999/100) } },
    true, true, zeroBuffers⟩

/-- An active particle one frame from death (`live = 0.01`). -/
def dyingParticle : Particle where
  offset := (0, 0, 0)
  scale := ((1/10), (1/10))
  quaternion := (0, 0, 0, 3)
  rotation := 0
  color := (1, 1, 1, (3/5))
  blend := (4/5)
  texture := (1/2)
  live := (1/100)
  scale_increase := (1/500)
  opacity_decrease := (1/125)
  color_from := ((1/2), (1/2), (1/2))
  color_to := ((1/2), (1/2), (1/2))
  color_speed := 1
  color_pr := 0

/-- An active particle with ample remaining lifetime. -/
def livingParticle : Particle := { dyingParticle with live := 10 }

/-- Buffers filled with the sentinel value `77`, standing for the data of
previous frames. -/
def staleBuffers : Buffers :=
  ⟨fun _ => 77, fun _ => 77, fun _ => 77⟩

/-- A state with two active particles — the one at index 0 about to die, the
one at index 1 surviving — and sentinel-filled buffers. -/
def twoParticleState : SysState :=
  ⟨[], [dyingParticle, livingParticle], initExhaustEmitter, true, true, staleBuffers⟩

/-- Invariant of the reverb graph: for each emitter, the connected reverb
node groups are exactly the one stored in `_reverbNodes` (or none). -/
def ReverbInv (st : ReverbState) : Prop :=
  ∀ p, (st.ems p).connected = (st.ems p).stored.toList

/-! ## Proofs -/

lemma poolInv_init : PoolInv initPool := by
  refine ⟨List.nodup_nil, List.nodup_nil, ?_, rfl, ?_⟩ <;> simp [initPool]

lemma getLast?_mem {l : List ℕ} {p : ℕ} (h : l.getLast? = some p) : p ∈ l := by
  cases l with
  | nil => simp at h
  | cons a t =>
      have := List.getLast?_eq_getLast (a :: t) (by simp)
      rw [this] at h
      exact (Option.some.injEq _ _ ▸ h) ▸ List.getLast_mem (by simp)

lemma not_mem_dropLast_of_nodup {l : List ℕ} {p : ℕ} (hn : l.Nodup)
    (h : l.getLast? = some p) : p ∉ l.dropLast := by
  cases l with
  | nil => simp at h
  | cons a t =>
      have hne : (a :: t) ≠ [] := by simp
      have hl : (a :: t).dropLast ++ [(a :: t).getLast hne] = a :: t :=
        List.dropLast_append_getLast hne
      have hp : (a :: t).getLast hne = p := by
        have := List.getLast?_eq_getLast (a :: t) hne
        rw [this] at h
        exact (Option.some.injEq _ _).mp h
      intro hmem
      rw [← hl] at hn
      rw [hp] at hn
      have := (List.nodup_append.mp hn).2.2
      exact this hmem (by simp)

lemma poolInv_step {s : PoolState} (h : PoolInv s) (op : PoolOp) :
    PoolInv (s.step op) := by
  obtain ⟨hna, hnp, hdisj, hlen, hbound⟩ := h
  cases op with
  | acquire =>
      unfold PoolState.step PoolState.acquire
      cases hg : s.pool.getLast? with
      | some p =>
          simp only
          have hpmem : p ∈ s.pool := getLast?_mem hg
          have hpool_ne : s.pool ≠ [] := by
            intro hnil; rw [hnil] at hg; simp at hg
          have hpa : p ∉ s.active := fun hc => hdisj p ⟨hc, hpmem⟩
          refine ⟨?_, ?_, ?_, ?_, ?_⟩
          · rw [List.nodup_append]
            refine ⟨hna, List.nodup_singleton p, ?_⟩
            intro q hq hq1
            have hqp : q = p := by simpa using hq1
            exact hpa (hqp ▸ hq)
          · exact hnp.sublist (List.dropLast_sublist s.pool)
          · intro q ⟨hq1, hq2⟩
            have hq2m : q ∈ s.pool := (List.dropLast_sublist s.pool).mem hq2
            rcases List.mem_append.mp hq1 with hq1a | hq1p
            · exact hdisj q ⟨hq1a, hq2m⟩
            · have hqp : q = p := by simpa using hq1p
              rw [hqp] at hq2
              exact not_mem_dropLast_of_nodup hnp hg hq2
          · have hdl : s.pool.dropLast.length = s.pool.length - 1 := by
              simp [List.length_dropLast]
            have hple : 1 ≤ s.pool.length := List.length_pos.mpr hpool_ne
            simp only [List.length_append, List.length_cons, List.length_nil, hdl]
            omega
          · intro q hq
            rcases hq with hq | hq
            · rcases List.mem_append.mp hq with hq | hq
              · exact hbound q (Or.inl hq)
              · have hqp : q = p := by simpa using hq
                exact hqp ▸ hbound p (Or.inr hpmem)
            · exact hbound q (Or.inr ((List.dropLast_sublist s.pool).mem hq))
      | none =>
          simp only
          have hpool_nil : s.pool = [] := by
            cases hp : s.pool with
            | nil => rfl
            | cons a t => rw [hp] at hg; simp [List.getLast?_eq_getLast] at hg
          refine ⟨?_, hnp, ?_, ?_, ?_⟩
          · rw [List.nodup_append]
            refine ⟨hna, List.nodup_singleton _, ?_⟩
            intro q hq hq1
            have hqn : q = s.next := by simpa using hq1
            have := hbound q (Or.inl hq)
            omega
          · intro q ⟨hq1, hq2⟩
            rw [hpool_nil] at hq2
            simp at hq2
          · simp only [List.length_append, List.length_cons, List.length_nil]
            rw [hpool_nil] at hlen
            simp at hlen
            rw [hpool_nil]
            simp
            omega
          · intro q hq
            show q < s.next + 1
            rcases hq with hq | hq
            · rcases List.mem_append.mp hq with hq | hq
              · have := hbound q (Or.inl hq); omega
              · have hqn : q = s.next := by simpa using hq
                omega
            · have := hbound q (Or.inr hq); omega
  | release p =>
      unfold PoolState.step PoolState.release
      by_cases hp : p ∈ s.active
      · simp only [if_pos hp]
        have hppool : p ∉ s.pool := fun hc => hdisj p ⟨hp, hc⟩
        refine ⟨hna.erase p, ?_, ?_, ?_, ?_⟩
        · rw [List.nodup_append]
          refine ⟨hnp, List.nodup_singleton p, ?_⟩
          intro q hq hq1
          have hqp : q = p := by simpa using hq1
          exact hppool (hqp ▸ hq)
        · intro q ⟨hq1, hq2⟩
          have hq1a : q ∈ s.active := (List.erase_sublist p s.active).mem hq1
          rcases List.mem_append.mp hq2 with hq2p | hq2p
          · exact hdisj q ⟨hq1a, hq2p⟩
          · have hqp : q = p := by simpa using hq2p
            rw [hqp] at hq1
            exact ((hna.mem_erase_iff).mp hq1).1 rfl
        · have hel : (s.active.erase p).length = s.active.length - 1 :=
            List.length_erase_of_mem hp
          have hal : 1 ≤ s.active.length := List.length_pos.mpr (by
            intro hnil; rw [hnil] at hp; simp at hp)
          simp only [hel, List.length_append, List.length_cons, List.length_nil]
          omega
        · intro q hq
          rcases hq with hq | hq
          · exact hbound q (Or.inl ((List.erase_sublist p s.active).mem hq))
          · rcases List.mem_append.mp hq with hq | hq
            · exact hbound q (Or.inr hq)
            · have hqp : q = p := by simpa using hq
              exact hqp ▸ hbound p (Or.inl hp)
      · simp only [if_neg hp]
        exact ⟨hna, hnp, hdisj, hlen, hbound⟩
  | clear =>
      unfold PoolState.step PoolState.clear
      refine ⟨List.nodup_nil, ?_, ?_, ?_, ?_⟩
      · rw [List.nodup_append]
        refine ⟨hnp, List.nodup_reverse.mpr hna, ?_⟩
        intro q hq hq1
        exact hdisj q ⟨List.mem_reverse.mp hq1, hq⟩
      · intro q ⟨hq1, _⟩
        simp at hq1
      · simp only [List.length_append, List.length_reverse, List.length_nil]
        omega
      · intro q hq
        rcases hq with hq | hq
        · simp at hq
        · rcases List.mem_append.mp hq with hq | hq
          · exact hbound q (Or.inr hq)
          · exact hbound q (Or.inl (List.mem_reverse.mp hq))

lemma poolInv_runOps (ops : List PoolOp) {s : PoolState} (h : PoolInv s) :
    PoolInv (runOps ops s) := by
  induction ops generalizing s with
  | nil => exact h
  | cons op rest ih => exact ih (poolInv_step h op)

lemma next_mono_step (s : PoolState) (op : PoolOp) : s.next ≤ (s.step op).next := by
  cases op with
  | acquire =>
      unfold PoolState.step PoolState.acquire
      cases s.pool.getLast? <;> simp
  | release p =>
      unfold PoolState.step PoolState.release
      by_cases hp : p ∈ s.active <;> simp [hp]
  | clear => exact le_refl _

lemma next_mono_runOps (ops : List PoolOp) (s : PoolState) :
    s.next ≤ (runOps ops s).next := by
  induction ops generalizing s with
  | nil => exact le_refl _
  | cons op rest ih => exact le_trans (next_mono_step s op) (ih (s.step op))

/-- C3: Pool conservation — over every sequence of `acquire`/`release`/`clear`
operations from the initial pool, `activeCount + freeListLength` always equals
the total number of particle records ever constructed, that sum never
decreases as further operations run, and no record is simultaneously a member
of the active set and the free list. -/
theorem C3_pool_conservation (ops : List PoolOp) :
    ((runOps ops initPool).getActiveCount + (runOps ops initPool).pool.length
        = (runOps ops initPool).next)
    ∧ (∀ more : List PoolOp,
        (runOps ops initPool).getActiveCount + (runOps ops initPool).pool.length
          ≤ (runOps (ops ++ more) initPool).getActiveCount
              + (runOps (ops ++ more) initPool).pool.length)
    ∧ (∀ p, ¬(p ∈ (runOps ops initPool).active ∧ p ∈ (runOps ops initPool).pool)) := by
  have hinv := poolInv_runOps ops poolInv_init
  obtain ⟨_, _, hdisj, hlen, _⟩ := hinv
  refine ⟨hlen, ?_, hdisj⟩
  intro more
  have hinv2 := poolInv_runOps (ops ++ more) poolInv_init
  obtain ⟨_, _, _, hlen2, _⟩ := hinv2
  have hmono : (runOps ops initPool).next ≤ (runOps (ops ++ more) initPool).next := by
    have : runOps (ops ++ more) initPool = runOps more (runOps ops initPool) := by
      simp [runOps, List.foldl_append]
    rw [this]
    exact next_mono_runOps more (runOps ops initPool)
  unfold PoolState.getActiveCount at *
  omega

/-! ### Volume ramp lemmas -/

lemma stepVolume_abs_le (cur target : ℚ) : |stepVolume cur target - cur| ≤ (1/5) := by
  unfold stepVolume
  split_ifs with h1 h2
  · rw [abs_le]
    have hr : min target (cur + (1/5)) ≤ cur + (1/5) := min_le_right _ _
    have hl : cur ≤ min target (cur + (1/5)) := le_min h1.le (by linarith)
    constructor <;> linarith
  · rw [abs_le]
    have hr : max target (cur - (1/5)) ≤ cur := max_le h2.le (by linarith)
    have hl : cur - (1/5) ≤ max target (cur - (1/5)) := le_max_right _ _
    constructor <;> linarith
  · simp

lemma stepVolume_no_overshoot_up {cur target : ℚ} (h : cur ≤ target) :
    cur ≤ stepVolume cur target ∧ stepVolume cur target ≤ target := by
  unfold stepVolume
  split_ifs with h1 h2
  · exact ⟨le_min h1.le (by linarith), min_le_left _ _⟩
  · linarith
  · exact ⟨le_refl _, h⟩

lemma stepVolume_no_overshoot_down {cur target : ℚ} (h : target ≤ cur) :
    target ≤ stepVolume cur target ∧ stepVolume cur target ≤ cur := by
  unfold stepVolume
  split_ifs with h1 h2
  · linarith
  · exact ⟨le_max_left _ _, max_le h2.le (by linarith)⟩
  · exact ⟨h, le_refl _⟩

/-- C5: Volume ramp target, bound and convergence for the non-mix
perspectives. Every `setEmitterVolumes` call steps each non-mix
perspective's gain toward `clamp(base * multiplier, 0, 1)` with base `1.0`
when the perspective is soloed, the configured mix baseline when the solo
selection is `mix`, and `0.0` otherwise; the step never moves the gain by
more than `0.2` and never overshoots the target; from gain `0` with target
`1.0` the target is reached in exactly 5 calls; and for all starting/target
pairs in `[0, 1]` one call changes the gain by at most `0.2`. -/
theorem C5_volume_ramp :
    (∀ (currSoloState p : Perspective) (vols : Perspective → ℚ),
        p ∈ individualEmitters →
        setEmitterVolumes currSoloState vols p =
          stepVolume (vols p)
            (max 0 (min 1
              ((if currSoloState = Perspective.mix then EmitterVolMults.MIX
                else if p = currSoloState then 1 else 0) * volMult p))))
    ∧ (∀ cur target : ℚ, cur ≤ target →
        cur ≤ stepVolume cur target ∧ stepVolume cur target ≤ target)
    ∧ (∀ cur target : ℚ, target ≤ cur →
        target ≤ stepVolume cur target ∧ stepVolume cur target ≤ cur)
    ∧ ((fun g => stepVolume g 1)^[5] 0 = 1 ∧ (fun g => stepVolume g 1)^[4] 0 < 1)
    ∧ (∀ cur target : ℚ, 0 ≤ cur → cur ≤ 1 → 0 ≤ target → target ≤ 1 →
        |stepVolume cur target - cur| ≤ (1/5)) := by
  refine ⟨?_, fun c t h => stepVolume_no_overshoot_up h,
    fun c t h => stepVolume_no_overshoot_down h,
    ⟨by norm_num [Function.iterate_succ_apply', stepVolume],
      by norm_num [Function.iterate_succ_apply', stepVolume]⟩,
    fun c t _ _ _ _ => stepVolume_abs_le c t⟩
  intro solo p vols hp
  have hpm : p ≠ Perspective.mix := by
    simp only [individualEmitters, List.mem_cons, List.not_mem_nil,
      or_false] at hp
    rcases hp with h | h | h <;> subst h <;> decide
  simp [setEmitterVolumes, targetVolume, baseTarget, hpm]

/-- Witness for C5 at concrete inputs. -/
theorem C5_volume_ramp_witness :
    (setEmitterVolumes Perspective.exhaust initVolumes Perspective.intake =
      stepVolume (initVolumes Perspective.intake)
        (max 0 (min 1
          ((if Perspective.exhaust = Perspective.mix then EmitterVolMults.MIX
            else if Perspective.intake = Perspective.exhaust then 1 else 0)
              * volMult Perspective.intake))))
    ∧ (((1/2) : ℚ) ≤ stepVolume (1/2) (9/10) ∧ stepVolume (1/2) (9/10) ≤ (9/10))
    ∧ |stepVolume ((1/2) : ℚ) (9/10) - (1/2)| ≤ (1/5) :=
  ⟨C5_volume_ramp.1 Perspective.exhaust Perspective.intake initVolumes (by decide),
    C5_volume_ramp.2.1 (1/2) (9/10) (by norm_num),
    C5_volume_ramp.2.2.2.2 (1/2) (9/10) (by norm_num) (by norm_num) (by norm_num)
      (by norm_num)⟩

/-- C6 counterexample: on the very first `setEmitterVolumes` call, the `mix`
emitter's gain moves from its creation-time value `1.0` to `0` — a change of
`1.0`, five times the `0.2` maximum step — refuting the claim that every
emitter in the full perspective set only ever changes by a bounded step. -/
theorem C6_counterexample :
    |setEmitterVolumes Perspective.intake initVolumes Perspective.mix
        - initVolumes Perspective.mix| = 1
    ∧ ((1/5) : ℚ) < 1 := by
  constructor
  · norm_num [setEmitterVolumes, initVolumes]
  · norm_num

/-- C6 amended: the three non-mix perspective emitters are rate-limited —
no `setEmitterVolumes` call changes their gain by more than `0.2` — while
the `mix` emitter is unconditionally forced to gain `0` on every call
(which, from its initial gain `1.0`, is an instantaneous jump of `1.0` on
the first call). -/
theorem C6_rate_limited_gains_amended :
    (∀ (currSoloState : Perspective) (vols : Perspective → ℚ) (p : Perspective),
        p ≠ Perspective.mix →
        |setEmitterVolumes currSoloState vols p - vols p| ≤ (1/5))
    ∧ (∀ (currSoloState : Perspective) (vols : Perspective → ℚ),
        setEmitterVolumes currSoloState vols Perspective.mix = 0) := by
  constructor
  · intro solo vols p hp
    simp only [setEmitterVolumes, if_neg hp]
    exact stepVolume_abs_le _ _
  · intro solo vols
    simp [setEmitterVolumes]

/-- Witness for the amended C6 at concrete inputs. -/
theorem C6_rate_limited_gains_amended_witness :
    |setEmitterVolumes Perspective.mix initVolumes Perspective.exhaust
        - initVolumes Perspective.exhaust| ≤ (1/5)
    ∧ setEmitterVolumes Perspective.mix initVolumes Perspective.mix = 0 :=
  ⟨C6_rate_limited_gains_amended.1 Perspective.mix initVolumes
      Perspective.exhaust (by decide),
    C6_rate_limited_gains_amended.2 Perspective.mix initVolumes⟩

/-! ### Reverb routing lemmas -/

lemma teardownReverb_of_inv {e : EmitterReverb}
    (h : e.connected = e.stored.toList) :
    teardownReverb e = ⟨[], none⟩ := by
  cases e with
  | mk c s =>
      cases s with
      | none =>
          simp only [Option.toList] at h
          simp [teardownReverb, h]
      | some g =>
          simp only [Option.toList] at h
          subst h
          simp [teardownReverb]

lemma reverbInv_apply {st : ReverbState} (h : ReverbInv st) (b s : ℚ) :
    ReverbInv (applyConvolutionReverb b s st)
    ∧ ∀ p, ((applyConvolutionReverb b s st).ems p).connected.length = 1 := by
  constructor
  · intro p
    simp [applyConvolutionReverb, teardownReverb_of_inv (h p), Option.toList]
  · intro p
    simp [applyConvolutionReverb, teardownReverb_of_inv (h p)]

lemma reverbInv_applyCalls (calls : List (ℚ × ℚ)) {st : ReverbState}
    (h : ReverbInv st) : ReverbInv (applyReverbCalls calls st) := by
  induction calls generalizing st with
  | nil => exact h
  | cons c rest ih =>
      exact ih ((reverbInv_apply h c.1 c.2).1)

lemma reverbInv_init : ReverbInv initReverb := by
  intro p
  simp [initReverb, Option.toList]

/-- C8: Reverb routing idempotency — after any sequence of
`applyConvolutionReverb` calls followed by one more, every emitter has
exactly one connected wet/dry/convolver node group (each call tears the
previously stored group down before building the new one, so parallel paths
never accumulate); and `removeConvolutionReverb` after any number of applies
leaves every emitter with zero connected groups and no stored group. -/
theorem C8_reverb_idempotency :
    (∀ (calls : List (ℚ × ℚ)) (b s : ℚ) (p : Perspective),
        ((applyConvolutionReverb b s
            (applyReverbCalls calls initReverb)).ems p).connected.length = 1)
    ∧ (∀ (calls : List (ℚ × ℚ)) (p : Perspective),
        ((removeConvolutionReverb (applyReverbCalls calls initReverb)).ems p).connected = []
        ∧ ((removeConvolutionReverb
              (applyReverbCalls calls initReverb)).ems p).stored = none) := by
  constructor
  · intro calls b s p
    exact (reverbInv_apply (reverbInv_applyCalls calls reverbInv_init) b s).2 p
  · intro calls p
    have hinv := reverbInv_applyCalls calls reverbInv_init
    have hems : (removeConvolutionReverb (applyReverbCalls calls initReverb)).ems p
        = teardownReverb ((applyReverbCalls calls initReverb).ems p) := rfl
    rw [hems, teardownReverb_of_inv (hinv p)]
    exact ⟨rfl, rfl⟩

/-- The source's `while` loop in the `accel` case terminates — with the
whole ramp completed — within a single `tick` call, whenever the delta time
is positive and enough fuel is provided for the loop's iterations. -/
lemma accelLoop_reaches (dt : ℚ) (hdt : 0 < dt) :
    ∀ (fuel : ℕ) (ts : ℚ), ts < 1 → 1 ≤ ts + fuel * dt →
      accelLoop dt fuel ts = some (1, DriveState.drive) := by
  intro fuel
  induction fuel with
  | zero =>
      intro ts hlt hge
      push_cast at hge
      linarith
  | succ n ih =>
      intro ts hlt hge
      unfold accelLoop
      rw [if_pos hlt]
      by_cases hts1 : ts + dt ≥ 1
      · rw [if_pos hts1]
      · rw [if_neg hts1]
        refine ih (ts + dt) (by linarith) ?_
        push_cast at hge
        push_cast
        linarith

/-- C7 (evaluation at the failing input): one `tick` call in state `accel`
with `timeScale = 0.01` and `deltaTime = 0.016` runs the source's `while`
loop to completion, leaving `timeScale = 1.0` and state `drive` — the entire
ramp finishes inside a single per-frame update, instead of advancing the
time scale by one `deltaTime` (to `0.026`) and remaining in `accel` across
multiple frames as the claim (and the code's own comment, which promises a
gradual increase) describes. -/
theorem C7_accel_ramp_completes_in_one_call :
    tickDriveState (2/125) 100 (1/100) DriveState.accel = some (1, DriveState.drive)
    ∧ tickDriveState (2/125) 100 (1/100) DriveState.accel ≠
        some ((13/500), DriveState.accel) := by
  have h : accelLoop (2/125) 100 (1/100) = some (1, DriveState.drive) := by
    refine accelLoop_reaches (2/125) (by norm_num) 100 (1/100) (by norm_num) ?_
    push_cast
    norm_num
  have ht : tickDriveState (2/125) 100 (1/100) DriveState.accel
      = accelLoop (2/125) 100 (1/100) := rfl
  refine ⟨ht.trans h, ?_⟩
  rw [ht, h]
  intro hcontra
  have := Option.some.inj hcontra
  have h1 : (1 : ℚ) = 13/500 := congrArg Prod.fst this
  norm_num at h1

/-- C9: Implicit no-op guard — with the system's `enabled` or `visible`
flag false, `update` returns immediately and the whole particle-system
state (pool, active set, emitter settings and accumulator, render buffers)
is unchanged, for any delta time and drive state. -/
theorem C9_noop_guard (dt : ℚ) (engineState : DriveState)
    (rands : ℕ → SpawnRands) (st : SysState)
    (h : st.enabled = false ∨ st.visible = false) :
    update dt engineState rands st = st := by
  unfold update
  rw [if_pos h]

/-- Witness for C9 on a concrete disabled state. -/
theorem C9_noop_guard_witness :
    update (2/125) DriveState.drive (fun _ => zeroRands) disabledState
      = disabledState :=
  C9_noop_guard (2/125) DriveState.drive (fun _ => zeroRands) disabledState
    (Or.inl rfl)

/-! ### Emission accumulator lemmas -/

lemma emitStep_fst (a e : ℚ) : (emitStep a e).1 = e - ⌊e / a⌋ * a := rfl

lemma emitStep_snd (a e : ℚ) : (emitStep a e).2 = ⌊e / a⌋ := rfl

lemma emitTotals_succ_fst (a d : ℚ) (n : ℕ) :
    (emitTotals a d (n + 1)).1 = (emitStep a ((emitTotals a d n).1 + d)).1 := rfl

lemma emitTotals_succ_snd (a d : ℚ) (n : ℕ) :
    (emitTotals a d (n + 1)).2
      = (emitTotals a d n).2 + (emitStep a ((emitTotals a d n).1 + d)).2 := rfl

/-- The carry-remainder invariant of the accumulator: after `n` constant
steps the accumulator equals `n*d` minus what has been emitted, and lies in
`[0, a)`. -/
lemma emitTotals_spec (a d : ℚ) (ha : 0 < a) (hd : 0 ≤ d) (n : ℕ) :
    (emitTotals a d n).1 = n * d - (emitTotals a d n).2 * a
    ∧ 0 ≤ (emitTotals a d n).1 ∧ (emitTotals a d n).1 < a := by
  induction n with
  | zero =>
      refine ⟨by simp [emitTotals], by simp [emitTotals], ?_⟩
      simpa [emitTotals] using ha
  | succ n ih =>
      obtain ⟨heq, h0, hlt⟩ := ih
      have hfl : (⌊((emitTotals a d n).1 + d) / a⌋ : ℚ) * a
          ≤ (emitTotals a d n).1 + d := by
        have h1 := Int.floor_le (((emitTotals a d n).1 + d) / a)
        have h2 := mul_le_mul_of_nonneg_right h1 ha.le
        rwa [div_mul_cancel₀ _ (ne_of_gt ha)] at h2
      have hfu : (emitTotals a d n).1 + d
          < ((⌊((emitTotals a d n).1 + d) / a⌋ : ℚ) + 1) * a := by
        have h1 := Int.lt_floor_add_one (((emitTotals a d n).1 + d) / a)
        have h2 := mul_lt_mul_of_pos_right h1 ha
        rwa [div_mul_cancel₀ _ (ne_of_gt ha)] at h2
      have hexp : ((⌊((emitTotals a d n).1 + d) / a⌋ : ℚ) + 1) * a
          = (⌊((emitTotals a d n).1 + d) / a⌋ : ℚ) * a + a := by ring
      refine ⟨?_, ?_, ?_⟩
      · rw [emitTotals_succ_fst, emitTotals_succ_snd, emitStep_fst,
          emitStep_snd, heq]
        push_cast
        ring
      · rw [emitTotals_succ_fst, emitStep_fst]
        linarith
      · rw [emitTotals_succ_fst, emitStep_fst]
        rw [hexp] at hfu
        linarith

/-- C1: Emission-rate fidelity — each enabled `update` call feeds the
accumulator `elapsed + deltaTime` through `emitStep` (add `deltaTime`,
request `floor(elapsed/addTime)` spawns, carry the remainder), and the
accumulator recurrence with constant `deltaTime = d > 0` and constant
`addTime = a > 0` emits exactly `floor(N*d/a)` particles over `N` calls —
in particular within one unit of it. -/
theorem C1_emission_rate_fidelity :
    (∀ (dt : ℚ) (engineState : DriveState) (rands : ℕ → SpawnRands)
        (st : SysState),
        st.enabled = true → st.visible = true →
        engineState ≠ DriveState.stop →
        (update dt engineState rands st).emitter.settings.elapsed =
          (emitStep (effectiveSettings engineState st.emitter.settings).add_time
            (st.emitter.settings.elapsed + dt)).1)
    ∧ (∀ (a d : ℚ), 0 < a → 0 < d → ∀ N : ℕ,
        (emitTotals a d N).2 = ⌊((N : ℚ) * d) / a⌋
        ∧ |(emitTotals a d N).2 - ⌊((N : ℚ) * d) / a⌋| ≤ 1) := by
  constructor
  · intro dt engineState rands st h1 h2 hes
    unfold update
    rw [if_neg (by simp [h1, h2])]
    simp only
    show (spawnPlan dt engineState st).1.elapsed = _
    unfold spawnPlan
    rw [if_pos hes]
    rfl
  · intro a d ha hd N
    obtain ⟨heq, h0, hlt⟩ := emitTotals_spec a d ha hd.le N
    have hfloor : ⌊((N : ℚ) * d) / a⌋ = (emitTotals a d N).2 := by
      rw [Int.floor_eq_iff]
      constructor
      · rw [le_div_iff₀ ha]
        linarith
      · rw [div_lt_iff₀ ha]
        push_cast
        nlinarith
    exact ⟨hfloor.symm, by rw [hfloor]; simp⟩

/-- Witness for C1: one enabled `drive` update on the burst state, and the
spec's worked example `d = 0.016`, `a = 0.02` over `1000` calls. -/
theorem C1_emission_rate_fidelity_witness :
    ((update (2/125) DriveState.drive (fun _ => zeroRands)
        burstState).emitter.settings.elapsed =
      (emitStep (effectiveSettings DriveState.drive
          burstState.emitter.settings).add_time
        (burstState.emitter.settings.elapsed + (2/125))).1)
    ∧ (emitTotals (1/50) (2/125) 1000).2 = ⌊(((1000 : ℕ) : ℚ) * (2/125) / (1/50))⌋ :=
  ⟨C1_emission_rate_fidelity.1 (2/125) DriveState.drive (fun _ => zeroRands)
      burstState rfl rfl (by decide),
    (C1_emission_rate_fidelity.2 (1/50) (2/125) (by norm_num) (by norm_num) 1000).1⟩

/-! ### Update pass lemmas -/

/-- The survivors of the pass are exactly the stepped particles that pass
the death test, in order. -/
lemma runPass_survivors (dt : ℚ) (l : List Particle) (k : ℕ) (bufs : Buffers) :
    (runPass dt l k bufs).survivors
      = (l.map (stepParticle dt)).filter (fun q => !(pDead q)) := by
  induction l generalizing k bufs with
  | nil => rfl
  | cons p rest ih =>
      by_cases h : pDead (stepParticle dt p)
      · simp [runPass, h, ih]
      · simp [runPass, h, ih]

/-- With the system enabled, `update`'s surviving active list is the
order-preserving filter of the stepped post-spawn active list. -/
lemma update_active_of_enabled (dt : ℚ) (engineState : DriveState)
    (rands : ℕ → SpawnRands) (st : SysState)
    (h1 : st.enabled = true) (h2 : st.visible = true) :
    (update dt engineState rands st).active
      = ((postSpawnActive dt engineState rands st).map
          (stepParticle dt)).filter (fun q => !(pDead q)) := by
  unfold update
  rw [if_neg (by simp [h1, h2])]
  exact runPass_survivors dt (postSpawnActive dt engineState rands st) 0 st.bufs

/-- With the system enabled, `update`'s buffers are those produced by the
pass over the post-spawn active list. -/
lemma update_bufs_of_enabled (dt : ℚ) (engineState : DriveState)
    (rands : ℕ → SpawnRands) (st : SysState)
    (h1 : st.enabled = true) (h2 : st.visible = true) :
    (update dt engineState rands st).bufs
      = (runPass dt (postSpawnActive dt engineState rands st) 0 st.bufs).bufs := by
  unfold update
  rw [if_neg (by simp [h1, h2])]

/-- One `update` call never lifts the active count above the cap. -/
lemma update_active_le (dt : ℚ) (engineState : DriveState)
    (rands : ℕ → SpawnRands) (st : SysState)
    (h : st.active.length ≤ MAX_PARTICLES) :
    (update dt engineState rands st).active.length ≤ MAX_PARTICLES := by
  by_cases hd : st.enabled = false ∨ st.visible = false
  · unfold update
    rw [if_pos hd]
    exact h
  · have h1 : st.enabled = true := by
      cases he : st.enabled
      · exact absurd (Or.inl he) hd
      · rfl
    have h2 : st.visible = true := by
      cases hv : st.visible
      · exact absurd (Or.inr hv) hd
      · rfl
    rw [update_active_of_enabled dt engineState rands st h1 h2]
    have hsp : (spawnPlan dt engineState st).2 ≤ MAX_PARTICLES - st.active.length := by
      unfold spawnPlan
      split_ifs
      · exact min_le_right _ _
      · exact Nat.zero_le _
    have hlen : (((postSpawnActive dt engineState rands st).map
        (stepParticle dt)).filter (fun q => !(pDead q))).length
          ≤ st.active.length + (spawnPlan dt engineState st).2 := by
      refine le_trans (List.length_filter_le _ _) ?_
      simp [postSpawnActive]
    omega

/-- C2: Cap enforcement — over any sequence of `update` calls from a state
within the cap, the active count never exceeds `MAX_PARTICLES = 1000`; and
a single burst that requests 10000 spawns (accumulator at `199.99` plus a
`0.01` delta at `addTime = 0.02`) against an empty active set yields exactly
1000 active particles, the excess silently dropped (the model is total: no
error path exists). -/
theorem C2_cap_enforcement :
    (∀ (calls : List (ℚ × DriveState × (ℕ → SpawnRands))) (st : SysState),
        st.active.length ≤ MAX_PARTICLES →
        (applyCalls calls st).active.length ≤ MAX_PARTICLES)
    ∧ burstState.active.length = 0
    ∧ (emitStep (effectiveSettings DriveState.drive
        burstState.emitter.settings).add_time
          (burstState.emitter.settings.elapsed + (1/100))).2 = 10000
    ∧ (update (1/100) DriveState.drive (fun _ => zeroRands)
        burstState).active.length = 1000 := by
  have hat : (effectiveSettings DriveState.drive
      burstState.emitter.settings).add_time = 1/50 := rfl
  have hel : burstState.emitter.settings.elapsed = 19999/100 := rfl
  have harg : (burstState.emitter.settings.elapsed + (1/100))
      / (effectiveSettings DriveState.drive
          burstState.emitter.settings).add_time = (10000 : ℚ) := by
    rw [hat, hel]
    norm_num
  have hfloor : (emitStep (effectiveSettings DriveState.drive
      burstState.emitter.settings).add_time
        (burstState.emitter.settings.elapsed + (1/100))).2 = 10000 := by
    rw [emitStep_snd, harg]
    norm_num
  refine ⟨?_, rfl, hfloor, ?_⟩
  · intro calls
    induction calls with
    | nil => exact fun st h => h
    | cons c rest ih =>
        intro st h
        exact ih _ (update_active_le c.1 c.2.1 c.2.2 st h)
  · have hsp2 : (spawnPlan (1/100) DriveState.drive burstState).2
        = min (emitStep (effectiveSettings DriveState.drive
            burstState.emitter.settings).add_time
              (burstState.emitter.settings.elapsed + (1/100))).2.toNat
          (MAX_PARTICLES - burstState.active.length) := by
      unfold spawnPlan
      rw [if_pos (by decide : DriveState.drive ≠ DriveState.stop)]
      rfl
    have hplan2 : (spawnPlan (1/100) DriveState.drive burstState).2 = 1000 := by
      rw [hsp2, hfloor]
      decide
    rw [update_active_of_enabled (1/100) DriveState.drive (fun _ => zeroRands)
        burstState rfl rfl]
    have hall : ∀ q ∈ (postSpawnActive (1/100) DriveState.drive
        (fun _ => zeroRands) burstState).map (stepParticle (1/100)),
        (fun q => !(pDead q)) q = true := by
      intro q hq
      rw [List.mem_map] at hq
      obtain ⟨p, hp, rfl⟩ := hq
      unfold postSpawnActive at hp
      simp only [List.mem_append, List.mem_map, List.mem_range] at hp
      rcases hp with hp | ⟨i, _, rfl⟩
      · simp [burstState] at hp
      · have hS1 : (spawnPlan (1/100) DriveState.drive
            burstState).1.live_time_from = 1 := rfl
        have hS2 : (spawnPlan (1/100) DriveState.drive
            burstState).1.live_time_to = 3/2 := rfl
        have hS3 : (spawnPlan (1/100) DriveState.drive
            burstState).1.opacity = 3/5 := rfl
        have hS4 : (spawnPlan (1/100) DriveState.drive
            burstState).1.opacity_decrease = 1/125 := rfl
        have hlive : ¬((stepParticle (1/100) (spawnParticle
            (spawnPlan (1/100) DriveState.drive burstState).1
              burstState.emitter.position.2.1 zeroRands)).live ≤ 0) := by
          simp only [stepParticle, spawnParticle, lerp, zeroRands]
          rw [hS1, hS2]
          norm_num
        have halpha : ¬((stepParticle (1/100) (spawnParticle
            (spawnPlan (1/100) DriveState.drive burstState).1
              burstState.emitter.position.2.1 zeroRands)).color.2.2.2 ≤ 0) := by
          simp only [stepParticle, spawnParticle, lerp, zeroRands]
          rw [hS3, hS4]
          norm_num
        simp only [pDead, decide_eq_false hlive, decide_eq_false halpha,
          Bool.or_self, Bool.not_false]
    rw [List.filter_eq_self.mpr hall]
    simp only [List.length_map]
    unfold postSpawnActive
    simp only [List.length_append, List.length_map, List.length_range]
    rw [hplan2]
    rfl

/-- Witness for C2's quantified cap conjunct on a concrete call list. -/
theorem C2_cap_enforcement_witness :
    (applyCalls [((1/100), DriveState.drive, fun _ => zeroRands)]
        burstState).active.length ≤ MAX_PARTICLES :=
  C2_cap_enforcement.1 [((1/100), DriveState.drive, fun _ => zeroRands)]
    burstState (by decide)

/-! ### Frozen accumulator lemmas -/

/-- A stopped `update` call leaves the emitter settings (the accumulator
included) untouched. -/
lemma update_stop_settings (dt : ℚ) (rands : ℕ → SpawnRands) (st : SysState) :
    (update dt DriveState.stop rands st).emitter.settings
      = st.emitter.settings := by
  by_cases hd : st.enabled = false ∨ st.visible = false
  · unfold update
    rw [if_pos hd]
  · unfold update
    rw [if_neg hd]
    rfl

/-- C10: Frozen accumulator in `stop` — any sequence of stopped `update`
calls leaves the emitter settings (hence the `elapsed` accumulator)
unchanged; a stopped call spawns nothing (the new active list is just the
filtered step of the old one); and the first non-stop call spawns at most
`floor((elapsed + deltaTime) / addTime)` particles, with `addTime` the value
the call installs — no catch-up burst. -/
theorem C10_frozen_accumulator :
    (∀ (calls : List (ℚ × (ℕ → SpawnRands))) (st : SysState),
        (applyCalls (calls.map (fun c => (c.1, DriveState.stop, c.2)))
            st).emitter.settings = st.emitter.settings)
    ∧ (∀ (dt : ℚ) (rands : ℕ → SpawnRands) (st : SysState),
        st.enabled = true → st.visible = true →
        (update dt DriveState.stop rands st).active
          = (st.active.map (stepParticle dt)).filter (fun q => !(pDead q)))
    ∧ (∀ (dt : ℚ) (engineState : DriveState) (rands : ℕ → SpawnRands)
        (st : SysState),
        engineState ≠ DriveState.stop →
        0 ≤ st.emitter.settings.elapsed → 0 < dt →
        ((spawnPlan dt engineState st).2 : ℤ)
          ≤ ⌊(st.emitter.settings.elapsed + dt)
              / (effectiveSettings engineState st.emitter.settings).add_time⌋) := by
  refine ⟨?_, ?_, ?_⟩
  · intro calls
    induction calls with
    | nil => exact fun st => rfl
    | cons c rest ih =>
        intro st
        simp only [List.map_cons, applyCalls, List.foldl_cons]
        have := ih (update c.1 DriveState.stop c.2 st)
        simp only [applyCalls] at this
        rw [this, update_stop_settings]
  · intro dt rands st h1 h2
    rw [update_active_of_enabled dt DriveState.stop rands st h1 h2]
    unfold postSpawnActive
    have : (spawnPlan dt DriveState.stop st).2 = 0 := rfl
    rw [this]
    simp
  · intro dt engineState rands st hes he hdt
    have ha : 0 < (effectiveSettings engineState st.emitter.settings).add_time := by
      unfold effectiveSettings
      simp only
      split_ifs <;> norm_num
    have hsp : (spawnPlan dt engineState st).2
        = min (emitStep (effectiveSettings engineState
            st.emitter.settings).add_time
              (st.emitter.settings.elapsed + dt)).2.toNat
          (MAX_PARTICLES - st.active.length) := by
      unfold spawnPlan
      rw [if_pos hes]
      rfl
    have hfl : 0 ≤ ⌊(st.emitter.settings.elapsed + dt)
        / (effectiveSettings engineState st.emitter.settings).add_time⌋ :=
      Int.floor_nonneg.mpr (div_nonneg (by linarith) ha.le)
    rw [hsp, emitStep_snd]
    have hmin : ((min ⌊(st.emitter.settings.elapsed + dt)
        / (effectiveSettings engineState st.emitter.settings).add_time⌋.toNat
          (MAX_PARTICLES - st.active.length) : ℕ) : ℤ)
        ≤ ((⌊(st.emitter.settings.elapsed + dt)
            / (effectiveSettings engineState st.emitter.settings).add_time⌋.toNat : ℕ) : ℤ) := by
      exact_mod_cast Nat.min_le_left _ _
    rwa [Int.toNat_of_nonneg hfl] at hmin

/-- Witness for C10 at concrete inputs. -/
theorem C10_frozen_accumulator_witness :
    ((applyCalls ([(((2/125) : ℚ), fun _ => zeroRands)].map
        (fun c => (c.1, DriveState.stop, c.2))) burstState).emitter.settings
      = burstState.emitter.settings)
    ∧ ((update (2/125) DriveState.stop (fun _ => zeroRands)
          twoParticleState).active
        = ((twoParticleState.active.map (stepParticle (2/125))).filter
            (fun q => !(pDead q))))
    ∧ ((spawnPlan (1/100) DriveState.drive burstState).2 : ℤ)
        ≤ ⌊(burstState.emitter.settings.elapsed + (1/100))
            / (effectiveSettings DriveState.drive
                burstState.emitter.settings).add_time⌋ :=
  ⟨C10_frozen_accumulator.1 [(((2/125) : ℚ), fun _ => zeroRands)] burstState,
    C10_frozen_accumulator.2.1 (2/125) (fun _ => zeroRands) twoParticleState rfl rfl,
    C10_frozen_accumulator.2.2 (1/100) DriveState.drive (fun _ => zeroRands)
      burstState (by decide) (by norm_num [burstState, initSettings]) (by norm_num)⟩

/-! ### Render-buffer indexing lemmas -/

lemma passWrite_sizes_ne (bufs : Buffers) (i : ℕ) (q : Particle) {n : ℕ}
    (hn : n ≠ i) : (passWrite bufs i q).sizes n = bufs.sizes n := by
  simp [passWrite, Function.update_noteq hn]

lemma passWrite_positions_ne (bufs : Buffers) (i : ℕ) (q : Particle) {n : ℕ}
    (h0 : n ≠ i * 3) (h1 : n ≠ i * 3 + 1) (h2 : n ≠ i * 3 + 2) :
    (passWrite bufs i q).positions n = bufs.positions n := by
  simp [passWrite, write3, Function.update_noteq h0, Function.update_noteq h1,
    Function.update_noteq h2]

lemma passWrite_colors_ne (bufs : Buffers) (i : ℕ) (q : Particle) {n : ℕ}
    (h0 : n ≠ i * 4) (h1 : n ≠ i * 4 + 1) (h2 : n ≠ i * 4 + 2)
    (h3 : n ≠ i * 4 + 3) :
    (passWrite bufs i q).colors n = bufs.colors n := by
  simp [passWrite, write4, Function.update_noteq h0, Function.update_noteq h1,
    Function.update_noteq h2, Function.update_noteq h3]

lemma runPass_cons_dead (dt : ℚ) (p : Particle) (rest : List Particle)
    (k : ℕ) (bufs : Buffers) (h : pDead (stepParticle dt p) = true) :
    runPass dt (p :: rest) k bufs
      = ⟨(runPass dt rest (k + 1) bufs).survivors,
          stepParticle dt p :: (runPass dt rest (k + 1) bufs).dead,
          (runPass dt rest (k + 1) bufs).bufs⟩ := by
  simp [runPass, h]

lemma runPass_cons_alive (dt : ℚ) (p : Particle) (rest : List Particle)
    (k : ℕ) (bufs : Buffers) (h : pDead (stepParticle dt p) = false) :
    runPass dt (p :: rest) k bufs
      = ⟨stepParticle dt p
            :: (runPass dt rest (k + 1)
                (passWrite bufs k (stepParticle dt p))).survivors,
          (runPass dt rest (k + 1) (passWrite bufs k (stepParticle dt p))).dead,
          (runPass dt rest (k + 1) (passWrite bufs k (stepParticle dt p))).bufs⟩ := by
  simp [runPass, h]

lemma runPass_bufs_cons_dead (dt : ℚ) (p : Particle) (rest : List Particle)
    (k : ℕ) (bufs : Buffers) (h : pDead (stepParticle dt p) = true) :
    (runPass dt (p :: rest) k bufs).bufs
      = (runPass dt rest (k + 1) bufs).bufs := by
  rw [runPass_cons_dead dt p rest k bufs h]

lemma runPass_bufs_cons_alive (dt : ℚ) (p : Particle) (rest : List Particle)
    (k : ℕ) (bufs : Buffers) (h : pDead (stepParticle dt p) = false) :
    (runPass dt (p :: rest) k bufs).bufs
      = (runPass dt rest (k + 1) (passWrite bufs k (stepParticle dt p))).bufs := by
  rw [runPass_cons_alive dt p rest k bufs h]

/-- Buffer slots strictly below the pass's starting index are never
touched. -/
lemma runPass_bufs_frozen_below (dt : ℚ) (l : List Particle) :
    ∀ (k : ℕ) (bufs : Buffers),
      (∀ n, n < k → (runPass dt l k bufs).bufs.sizes n = bufs.sizes n)
      ∧ (∀ n, n < 3 * k → (runPass dt l k bufs).bufs.positions n = bufs.positions n)
      ∧ (∀ n, n < 4 * k → (runPass dt l k bufs).bufs.colors n = bufs.colors n) := by
  induction l with
  | nil =>
      intro k bufs
      exact ⟨fun n _ => rfl, fun n _ => rfl, fun n _ => rfl⟩
  | cons p rest ih =>
      intro k bufs
      by_cases h : pDead (stepParticle dt p)
      · rw [runPass_cons_dead dt p rest k bufs h]
        obtain ⟨hs, hp3, hc4⟩ := ih (k + 1) bufs
        exact ⟨fun n hn => hs n (by omega), fun n hn => hp3 n (by omega),
          fun n hn => hc4 n (by omega)⟩
      · rw [runPass_cons_alive dt p rest k bufs (by simpa using h)]
        obtain ⟨hs, hp3, hc4⟩ := ih (k + 1) (passWrite bufs k (stepParticle dt p))
        refine ⟨fun n hn => ?_, fun n hn => ?_, fun n hn => ?_⟩
        · rw [hs n (by omega)]
          exact passWrite_sizes_ne bufs k _ (by omega)
        · rw [hp3 n (by omega)]
          exact passWrite_positions_ne bufs k _ (by omega) (by omega) (by omega)
        · rw [hc4 n (by omega)]
          exact passWrite_colors_ne bufs k _ (by omega) (by omega) (by omega)
            (by omega)

/-- Where each particle's data lands: the particle at position `i` of the
pre-pass list is processed at loop index `k + i`; if it survives, its size,
xyz and RGBA are written at slots derived from `k + i`; if it dies, those
slots keep the incoming buffers' values (stale data from previous frames).
-/
lemma runPass_buffer_slots (dt : ℚ) (l : List Particle) :
    ∀ (k : ℕ) (bufs : Buffers) (i : ℕ) (hi : i < l.length),
      (pDead (stepParticle dt l[i]) = false →
        (runPass dt l k bufs).bufs.sizes (k + i)
            = (stepParticle dt l[i]).scale.1
        ∧ (runPass dt l k bufs).bufs.positions ((k + i) * 3)
            = (stepParticle dt l[i]).offset.1
        ∧ (runPass dt l k bufs).bufs.positions ((k + i) * 3 + 1)
            = (stepParticle dt l[i]).offset.2.1
        ∧ (runPass dt l k bufs).bufs.positions ((k + i) * 3 + 2)
            = (stepParticle dt l[i]).offset.2.2
        ∧ (runPass dt l k bufs).bufs.colors ((k + i) * 4)
            = (stepParticle dt l[i]).color.1
        ∧ (runPass dt l k bufs).bufs.colors ((k + i) * 4 + 1)
            = (stepParticle dt l[i]).color.2.1
        ∧ (runPass dt l k bufs).bufs.colors ((k + i) * 4 + 2)
            = (stepParticle dt l[i]).color.2.2.1
        ∧ (runPass dt l k bufs).bufs.colors ((k + i) * 4 + 3)
            = (stepParticle dt l[i]).color.2.2.2)
      ∧ (pDead (stepParticle dt l[i]) = true →
        (runPass dt l k bufs).bufs.sizes (k + i) = bufs.sizes (k + i)
        ∧ (runPass dt l k bufs).bufs.positions ((k + i) * 3)
            = bufs.positions ((k + i) * 3)
        ∧ (runPass dt l k bufs).bufs.positions ((k + i) * 3 + 1)
            = bufs.positions ((k + i) * 3 + 1)
        ∧ (runPass dt l k bufs).bufs.positions ((k + i) * 3 + 2)
            = bufs.positions ((k + i) * 3 + 2)
        ∧ (runPass dt l k bufs).bufs.colors ((k + i) * 4)
            = bufs.colors ((k + i) * 4)
        ∧ (runPass dt l k bufs).bufs.colors ((k + i) * 4 + 1)
            = bufs.colors ((k + i) * 4 + 1)
        ∧ (runPass dt l k bufs).bufs.colors ((k + i) * 4 + 2)
            = bufs.colors ((k + i) * 4 + 2)
        ∧ (runPass dt l k bufs).bufs.colors ((k + i) * 4 + 3)
            = bufs.colors ((k + i) * 4 + 3)) := by
  induction l with
  | nil =>
      intro k bufs i hi
      simp at hi
  | cons p rest ih =>
      intro k bufs i hi
      cases i with
      | zero =>
          simp only [List.getElem_cons_zero, Nat.add_zero]
          by_cases h : pDead (stepParticle dt p)
          · rw [runPass_cons_dead dt p rest k bufs h]
            obtain ⟨hs, hp3, hc4⟩ := runPass_bufs_frozen_below dt rest (k + 1) bufs
            constructor
            · intro hfalse
              rw [h] at hfalse
              cases hfalse
            · intro _
              exact ⟨hs k (by omega), hp3 _ (by omega), hp3 _ (by omega),
                hp3 _ (by omega), hc4 _ (by omega), hc4 _ (by omega),
                hc4 _ (by omega), hc4 _ (by omega)⟩
          · have hfb : pDead (stepParticle dt p) = false := by simpa using h
            rw [runPass_cons_alive dt p rest k bufs hfb]
            obtain ⟨hs, hp3, hc4⟩ := runPass_bufs_frozen_below dt rest (k + 1)
              (passWrite bufs k (stepParticle dt p))
            constructor
            · intro _
              refine ⟨?_, ?_, ?_, ?_, ?_, ?_, ?_, ?_⟩
              · rw [hs k (by omega)]
                simp [passWrite]
              · rw [hp3 _ (by omega)]
                simp [passWrite, write3, Function.update_noteq (by omega :
                  k * 3 ≠ k * 3 + 1), Function.update_noteq (by omega :
                  k * 3 ≠ k * 3 + 2)]
              · rw [hp3 _ (by omega)]
                simp [passWrite, write3, Function.update_noteq (by omega :
                  k * 3 + 1 ≠ k * 3 + 2)]
              · rw [hp3 _ (by omega)]
                simp [passWrite, write3]
              · rw [hc4 _ (by omega)]
                simp [passWrite, write4, Function.update_noteq (by omega :
                  k * 4 ≠ k * 4 + 1), Function.update_noteq (by omega :
                  k * 4 ≠ k * 4 + 2), Function.update_noteq (by omega :
                  k * 4 ≠ k * 4 + 3)]
              · rw [hc4 _ (by omega)]
                simp [passWrite, write4, Function.update_noteq (by omega :
                  k * 4 + 1 ≠ k * 4 + 2), Function.update_noteq (by omega :
                  k * 4 + 1 ≠ k * 4 + 3)]
              · rw [hc4 _ (by omega)]
                simp [passWrite, write4, Function.update_noteq (by omega :
                  k * 4 + 2 ≠ k * 4 + 3)]
              · rw [hc4 _ (by omega)]
                simp [passWrite, write4]
            · intro htrue
              rw [hfb] at htrue
              cases htrue
      | succ j =>
          simp only [List.getElem_cons_succ]
          have hj : j < rest.length := by
            simpa using Nat.lt_of_succ_lt_succ hi
          have hadd : k + (j + 1) = (k + 1) + j := by omega
          by_cases h : pDead (stepParticle dt p)
          · rw [runPass_cons_dead dt p rest k bufs h, hadd]
            exact ih (k + 1) bufs j hj
          · have hfb : pDead (stepParticle dt p) = false := by simpa using h
            rw [runPass_cons_alive dt p rest k bufs hfb, hadd]
            obtain ⟨halive, hdead⟩ :=
              ih (k + 1) (passWrite bufs k (stepParticle dt p)) j hj
            constructor
            · exact halive
            · intro htrue
              obtain ⟨d1, d2, d3, d4, d5, d6, d7, d8⟩ := hdead htrue
              refine ⟨?_, ?_, ?_, ?_, ?_, ?_, ?_, ?_⟩
              · rw [d1]
                exact passWrite_sizes_ne bufs k _ (by omega)
              · rw [d2]
                exact passWrite_positions_ne bufs k _ (by omega) (by omega)
                  (by omega)
              · rw [d3]
                exact passWrite_positions_ne bufs k _ (by omega) (by omega)
                  (by omega)
              · rw [d4]
                exact passWrite_positions_ne bufs k _ (by omega) (by omega)
                  (by omega)
              · rw [d5]
                exact passWrite_colors_ne bufs k _ (by omega) (by omega)
                  (by omega) (by omega)
              · rw [d6]
                exact passWrite_colors_ne bufs k _ (by omega) (by omega)
                  (by omega) (by omega)
              · rw [d7]
                exact passWrite_colors_ne bufs k _ (by omega) (by omega)
                  (by omega) (by omega)
              · rw [d8]
                exact passWrite_colors_ne bufs k _ (by omega) (by omega)
                  (by omega) (by omega)

/-- C4 counterexample: starting from two active particles where the one at
index 0 dies this frame and the one at index 1 survives, an enabled `update`
leaves an active count of `N = 1`, yet the surviving particle's size
(`0.102`) sits at buffer slot 1 — its pre-removal index — while slot 0 (the
only slot in `0..N-1`) still holds the stale sentinel `77` from the previous
frame.  The surviving particles therefore do not occupy the buffers at
consecutive matching indices `0..N-1`, refuting the claim at this input. -/
theorem C4_counterexample :
    (update (2/125) DriveState.stop (fun _ => zeroRands)
        twoParticleState).active.length = 1
    ∧ (update (2/125) DriveState.stop (fun _ => zeroRands)
        twoParticleState).bufs.sizes 0 = 77
    ∧ (update (2/125) DriveState.stop (fun _ => zeroRands)
        twoParticleState).bufs.sizes 1
        = (stepParticle (2/125) livingParticle).scale.1
    ∧ (stepParticle (2/125) livingParticle).scale.1 ≠ 77 := by
  have hpost : postSpawnActive (2/125) DriveState.stop (fun _ => zeroRands)
      twoParticleState = [dyingParticle, livingParticle] := rfl
  have hdead : pDead (stepParticle (2/125) dyingParticle) = true := by
    have h1 : (stepParticle (2/125) dyingParticle).live ≤ 0 := by
      norm_num [stepParticle, dyingParticle]
    simp only [pDead, decide_eq_true h1, Bool.true_or]
  have halive : pDead (stepParticle (2/125) livingParticle) = false := by
    have h1 : ¬((stepParticle (2/125) livingParticle).live ≤ 0) := by
      norm_num [stepParticle, livingParticle, dyingParticle]
    have h2 : ¬((stepParticle (2/125) livingParticle).color.2.2.2 ≤ 0) := by
      norm_num [stepParticle, livingParticle, dyingParticle]
    simp only [pDead, decide_eq_false h1, decide_eq_false h2, Bool.or_self]
  have hb : (update (2/125) DriveState.stop (fun _ => zeroRands)
      twoParticleState).bufs
      = passWrite twoParticleState.bufs 1 (stepParticle (2/125) livingParticle) := by
    rw [update_bufs_of_enabled (2/125) DriveState.stop (fun _ => zeroRands)
        twoParticleState rfl rfl, hpost,
      runPass_bufs_cons_dead (2/125) dyingParticle [livingParticle] 0
        twoParticleState.bufs hdead,
      runPass_bufs_cons_alive (2/125) livingParticle [] 1
        twoParticleState.bufs halive]
    rfl
  refine ⟨?_, ?_, ?_, ?_⟩
  · rw [update_active_of_enabled (2/125) DriveState.stop (fun _ => zeroRands)
        twoParticleState rfl rfl, hpost]
    simp [hdead, halive]
  · rw [hb, passWrite_sizes_ne _ _ _ (by norm_num : (0 : ℕ) ≠ 1)]
    rfl
  · rw [hb]
    simp [passWrite]
  · norm_num [stepParticle, livingParticle, dyingParticle]

/-- C4 amended: after every enabled `update` call, the surviving active
particles are the order-preserving filter of the stepped post-spawn active
list, and data lands in the flat buffers at the index each particle held in
the post-spawn active array *before* this pass's removals: a survivor's
size, xyz and RGBA are written at that original index, while the slots of a
particle that died this call retain their previous contents.  The buffers
are therefore compacted to `0..N-1` only when no particle is released at a
lower index than a survivor, and no effective draw length is truncated to
the active count (the source sets no draw range). -/
theorem C4_render_buffers_amended :
    ∀ (dt : ℚ) (engineState : DriveState) (rands : ℕ → SpawnRands)
      (st : SysState),
      st.enabled = true → st.visible = true →
      ((update dt engineState rands st).active
        = ((postSpawnActive dt engineState rands st).map
            (stepParticle dt)).filter (fun q => !(pDead q)))
      ∧ (∀ i (hi : i < (postSpawnActive dt engineState rands st).length),
          (pDead (stepParticle dt (postSpawnActive dt engineState rands st)[i])
              = false →
            (update dt engineState rands st).bufs.sizes i
                = (stepParticle dt
                    (postSpawnActive dt engineState rands st)[i]).scale.1
            ∧ (update dt engineState rands st).bufs.positions (i * 3)
                = (stepParticle dt
                    (postSpawnActive dt engineState rands st)[i]).offset.1
            ∧ (update dt engineState rands st).bufs.positions (i * 3 + 1)
                = (stepParticle dt
                    (postSpawnActive dt engineState rands st)[i]).offset.2.1
            ∧ (update dt engineState rands st).bufs.positions (i * 3 + 2)
                = (stepParticle dt
                    (postSpawnActive dt engineState rands st)[i]).offset.2.2
            ∧ (update dt engineState rands st).bufs.colors (i * 4)
                = (stepParticle dt
                    (postSpawnActive dt engineState rands st)[i]).color.1
            ∧ (update dt engineState rands st).bufs.colors (i * 4 + 1)
                = (stepParticle dt
                    (postSpawnActive dt engineState rands st)[i]).color.2.1
            ∧ (update dt engineState rands st).bufs.colors (i * 4 + 2)
                = (stepParticle dt
                    (postSpawnActive dt engineState rands st)[i]).color.2.2.1
            ∧ (update dt engineState rands st).bufs.colors (i * 4 + 3)
                = (stepParticle dt
                    (postSpawnActive dt engineState rands st)[i]).color.2.2.2)
          ∧ (pDead (stepParticle dt (postSpawnActive dt engineState rands st)[i])
              = true →
            (update dt engineState rands st).bufs.sizes i = st.bufs.sizes i
            ∧ (update dt engineState rands st).bufs.positions (i * 3)
                = st.bufs.positions (i * 3)
            ∧ (update dt engineState rands st).bufs.positions (i * 3 + 1)
                = st.bufs.positions (i * 3 + 1)
            ∧ (update dt engineState rands st).bufs.positions (i * 3 + 2)
                = st.bufs.positions (i * 3 + 2)
            ∧ (update dt engineState rands st).bufs.colors (i * 4)
                = st.bufs.colors (i * 4)
            ∧ (update dt engineState rands st).bufs.colors (i * 4 + 1)
                = st.bufs.colors (i * 4 + 1)
            ∧ (update dt engineState rands st).bufs.colors (i * 4 + 2)
                = st.bufs.colors (i * 4 + 2)
            ∧ (update dt engineState rands st).bufs.colors (i * 4 + 3)
                = st.bufs.colors (i * 4 + 3))) := by
  intro dt engineState rands st h1 h2
  refine ⟨update_active_of_enabled dt engineState rands st h1 h2, ?_⟩
  intro i hi
  have hb := update_bufs_of_enabled dt engineState rands st h1 h2
  obtain ⟨halive, hdead⟩ := runPass_buffer_slots dt
    (postSpawnActive dt engineState rands st) 0 st.bufs i hi
  simp only [Nat.zero_add] at halive hdead
  rw [hb]
  exact ⟨halive, hdead⟩

/-- Witness for the amended C4 on the concrete two-particle state. -/
theorem C4_render_buffers_amended_witness :
    (update (2/125) DriveState.stop (fun _ => zeroRands) twoParticleState).active
      = ((postSpawnActive (2/125) DriveState.stop (fun _ => zeroRands)
          twoParticleState).map (stepParticle (2/125))).filter
            (fun q => !(pDead q)) :=
  (C4_render_buffers_amended (2/125) DriveState.stop (fun _ => zeroRands)
    twoParticleState rfl rfl).1

end RX7
